import Mathlib

/-!
Shallow embedding of the nvidia-forum-scraper core (src/unnamed/part_000,
a TypeScript module built on the Effect library).

Modelling conventions:
* JavaScript `Date` values are `JsDate := Option Int` — `some t` is a valid
  date with millisecond timestamp `t`, `none` is an Invalid Date (`NaN`
  internal time).  The JS comparison `d < limit` on dates compares the
  numeric times and is `false` whenever either side is `NaN`; this is
  `isBefore` below.
* The external world (`fetch`, `fs`, date-fns `parseISO`) is an injected
  capability, the `Env` structure: the listing endpoint keyed by page
  number, the detail endpoint keyed by topic id, the ISO-date parser, and
  the outcomes of the header write and of each successive file append.
* Effects are traced: a run returns a result in `Except Err` together with
  the list of observable events (listing fetches, detail fetches, file
  writes) it performed, in order.  The output file's content is recovered
  from the trace by `fileChunks`/`fileContent`.
* The `Effect` pipeline of the source is sequential error-propagating
  composition, so it is embedded as explicit state passing where an error
  short-circuits the rest of the computation but the trace (the on-disk
  state) survives.
-/

namespace NvidiaScraper

/-- A JavaScript `Date`: `none` is an Invalid Date (NaN time). -/
abbrev JsDate := Option Int

/-- A JavaScript `Error`, carrying its message. -/
structure Err where
  msg : String
deriving Repr, DecidableEq

/-- Structure `CrawlParams` from the source (`tag`, `since`, `outputDir`). -/
structure CrawlParams where
  tag : String
  since : JsDate
  outputDir : String
deriving Repr, DecidableEq

/-- Structure `TopicListItem` from the source. -/
structure TopicListItem where
  id : Int
  title : String
  slug : String
  created_at : String
deriving Repr, DecidableEq

/-- The `topic_list` payload of a listing response
(`{ topics, more_topics_url }`, with `more_topics_url : string | null`). -/
structure TopicListRes where
  topics : List TopicListItem
  more_topics_url : Option String
deriving Repr, DecidableEq

/-- One post of a thread detail (`raw?`, `cooked?`, `created_at`). -/
structure Post where
  raw : Option String
  cooked : Option String
  created_at : String
deriving Repr, DecidableEq

/-- The optional `post_stream` object with its optional `posts` array. -/
structure PostStream where
  posts : Option (List Post)
deriving Repr, DecidableEq

/-- Structure `TopicDetail` from the source (`post_stream?.posts?`). -/
structure TopicDetail where
  post_stream : Option PostStream
deriving Repr, DecidableEq

/-! Pure functions: URL builders, date comparison. -/

/-- Function `buildListUrl` from the source. -/
def buildListUrl (tag : String) (page : Nat) : String :=
  "https://forums.developer.nvidia.com/tag/" ++ tag ++ ".json?solved=no&page=" ++ toString page

/-- Function `buildDetailUrl` from the source. -/
def buildDetailUrl (id : Int) : String :=
  "https://forums.developer.nvidia.com/t/" ++ toString id ++ ".json"

/-- Function `isBefore (d, limit) = d < limit` on JS dates: numeric comparison of the
internal times, `false` if either side is `NaN` (an Invalid Date). -/
def isBefore (d limit : JsDate) : Bool :=
  match d, limit with
  | some a, some b => decide (a < b)
  | _, _ => false

/-! Markup stripping: `html.replace(/<[^>]+>/g, "")`.

A match of `<[^>]+>` starts at a `<`, requires the next character to not be
`>`, and ends at the first `>` that follows; the global replace removes each
such match and scans on.  `stripAux` walks the characters outside a
candidate tag; on `<` it switches to `stripTag`, which buffers the
characters seen since the `<`.  Reaching `>` with a non-empty buffer
completes a match (the buffered characters and both delimiters are
dropped); reaching `>` with an empty buffer means `<>` which the regex does
not match (the `+` requires at least one inner character), so both
characters are kept; reaching the end of input without a `>` means no match
was possible anywhere after the `<` (every candidate needs a later `>`), so
everything is kept verbatim. -/

mutual

def stripAux : List Char → List Char
  | [] => []
  | c :: rest => if c = '<' then stripTag [] rest else c :: stripAux rest

def stripTag (buf : List Char) : List Char → List Char
  | [] => '<' :: buf.reverse
  | c :: rest =>
    if c = '>' then
      match buf with
      | [] => '<' :: '>' :: stripAux rest
      | _ :: _ => stripAux rest
    else stripTag (c :: buf) rest

end

/-- Function `stripHtml` from the source: `html.replace(/<[^>]+>/g, "")`. -/
def stripHtml (html : String) : String :=
  String.mk (stripAux html.data)

/-! CSV escaping. -/

/-- JS `str.includes(c)` for a single character. -/
def containsChar (s : String) (c : Char) : Bool :=
  s.data.contains c

/-- The global single-character replace `str.replace(/"/g, '""')`,
character by character. -/
def doubleQuotes : List Char → List Char
  | [] => []
  | c :: rest =>
    if c = '"' then '"' :: '"' :: doubleQuotes rest else c :: doubleQuotes rest

/-- Function `escapeCsv` from the source: quote-wrap (with internal quotes doubled)
exactly when the string contains a comma, a newline, or a double quote. -/
def escapeCsv (str : String) : String :=
  if containsChar str ',' || containsChar str '\n' || containsChar str '"' then
    "\"" ++ String.mk (doubleQuotes str.data) ++ "\""
  else str

/-! The effectful world. -/

/-- The raw outcome of one `fetch(url)` call: either the promise rejects
(transport error), or a response arrives with a `status` and a body whose
JSON decoding yields `body` (or a decode error). -/
inductive FetchOutcome (α : Type) where
  | transportErr (e : Err)
  | response (status : Nat) (body : Except Err α)

/-- JS `Response.ok`: status in the range 200–299. -/
def httpOk (status : Nat) : Bool :=
  decide (200 ≤ status) && decide (status ≤ 299)

/-- Function `fetchJson` from the source: rejects become errors, a non-ok status
becomes `Error("HTTP " + status)`, otherwise the decoded body (or the
decode error) is returned. -/
def fetchJson {α : Type} : FetchOutcome α → Except Err α
  | .transportErr e => .error e
  | .response status body =>
    if httpOk status then body else .error ⟨"HTTP " ++ toString status⟩

/-- Observable events of one run, in the order they happen. -/
inductive Ev where
  | header
  | listFetch (page : Nat)
  | detailFetch (id : Int)
  | append (line : String)
deriving Repr, DecidableEq

abbrev Trace := List Ev

/-- The injected external world: listing endpoint by page number, detail
endpoint by topic id, the ISO date parser (date-fns `parseISO`; `none` is
an Invalid Date), and the outcomes of the header write and of the k-th
row append. -/
structure Env where
  listing : Nat → FetchOutcome TopicListRes
  detail : Int → FetchOutcome TopicDetail
  parseISO : String → JsDate
  headerWrite : Except Err Unit
  appendWrite : Nat → Except Err Unit

/-- How many row appends a trace contains (indexes `Env.appendWrite`). -/
def appendCount (tr : Trace) : Nat :=
  (tr.filter (fun ev => match ev with | Ev.append _ => true | _ => false)).length

/-- The appended row lines of a trace, in order. -/
def appendsOf (tr : Trace) : List String :=
  tr.filterMap (fun ev => match ev with | Ev.append l => some l | _ => none)

/-- The fixed CSV header line written by `createCsvHeader`. -/
def headerLine : String := "id,title,body,created_at,tag\n"

/-- The successive chunks of the output file recorded in a trace: the
header line for the header write, each appended row line in order. -/
def fileChunks (tr : Trace) : List String :=
  tr.filterMap (fun ev =>
    match ev with
    | Ev.header => some headerLine
    | Ev.append l => some l
    | _ => none)

/-- The content of the output file after a trace. -/
def fileContent (tr : Trace) : String :=
  String.join (fileChunks tr)

/-! The crawl pipeline. -/

/-- The first post of a detail payload: `detail.post_stream?.posts?.[0]`. -/
def firstPost (detail : TopicDetail) : Option Post :=
  (detail.post_stream.bind (fun ps => ps.posts)).bind List.head?

/-- The body selected by `saveTopic`:
`firstPost?.cooked ?? firstPost?.raw ?? ""`. -/
def bodyHtml (detail : TopicDetail) : String :=
  match firstPost detail with
  | none => ""
  | some p =>
    match p.cooked with
    | some c => c
    | none =>
      match p.raw with
      | some r => r
      | none => ""

/-- The CSV line built by `saveTopic`:
`[id, escapeCsv(title), escapeCsv(cleanBody), created_at, tag].join(",") + "\n"`.
Only `title` and the body are escaped. -/
def csvLine (params : CrawlParams) (listing : TopicListItem) (cleanBody : String) : String :=
  String.intercalate ","
    [toString listing.id, escapeCsv listing.title, escapeCsv cleanBody,
     listing.created_at, params.tag] ++ "\n"

/-- Function `saveTopic` from the source: select the body, strip markup, build the
CSV line and append it to the output file.  The append's outcome is the
injected result for the next write; a failed append leaves the file
unchanged. -/
def saveTopic (env : Env) (params : CrawlParams) (listing : TopicListItem)
    (detail : TopicDetail) (tr : Trace) : Except Err Unit × Trace :=
  match env.appendWrite (appendCount tr) with
  | .error e => (.error e, tr)
  | .ok _ => (.ok (), tr ++ [Ev.append (csvLine params listing (stripHtml (bodyHtml detail)))])

/-- One iteration of `Effect.forEach` in `crawlPage`: parse the item's
date; if it is strictly before `since`, skip (succeed with no effect);
otherwise fetch the detail and save the topic. -/
def processItem (env : Env) (params : CrawlParams) (t : TopicListItem)
    (tr : Trace) : Except Err Unit × Trace :=
  if isBefore (env.parseISO t.created_at) params.since then
    (.ok (), tr)
  else
    match fetchJson (env.detail t.id) with
    | .error e => (.error e, tr ++ [Ev.detailFetch t.id])
    | .ok detail => saveTopic env params t detail (tr ++ [Ev.detailFetch t.id])

/-- `Effect.forEach(topics, ...)`: strictly sequential processing, the
first failure aborts the rest. -/
def processItems (env : Env) (params : CrawlParams) :
    List TopicListItem → Trace → Except Err Unit × Trace
  | [], tr => (.ok (), tr)
  | t :: rest, tr =>
    match processItem env params t tr with
    | (.error e, tr') => (.error e, tr')
    | (.ok _, tr') => processItems env params rest tr'

/-- The stop test of `crawlPage`, part (a): `!more_topics_url` — the
next-page link is absent (`null`) or the empty string (both falsy). -/
def moreAbsent : Option String → Bool
  | none => true
  | some s => s == ""

/-- The stop test of `crawlPage`, part (b):
`topics.some(t => isBefore(parseISO(t.created_at), since))`. -/
def pageStale (env : Env) (params : CrawlParams) (res : TopicListRes) : Bool :=
  res.topics.any (fun t => isBefore (env.parseISO t.created_at) params.since)

/-- Function `crawlPage` from the source, with a fuel bound on the recursion depth:
fetch the listing page, process every item sequentially, then recurse on
the next page unless the next-page link is falsy or some item on this page
was stale.  The result is `none` when the fuel runs out before the run
settles; the trace is returned in every case. -/
def crawlPage (env : Env) (params : CrawlParams) :
    Nat → Nat → Trace → Option (Except Err Unit) × Trace
  | 0, _, tr => (none, tr)
  | fuel + 1, page, tr =>
    match fetchJson (env.listing page) with
    | .error e => (some (.error e), tr ++ [Ev.listFetch page])
    | .ok res =>
      match processItems env params res.topics (tr ++ [Ev.listFetch page]) with
      | (.error e, tr2) => (some (.error e), tr2)
      | (.ok _, tr2) =>
        if moreAbsent res.more_topics_url || pageStale env params res then
          (some (.ok ()), tr2)
        else
          crawlPage env params fuel (page + 1) tr2

/-- Function `createCsvHeader` from the source: create/truncate the output file and
write the fixed header line. -/
def createCsvHeader (env : Env) (tr : Trace) : Except Err Unit × Trace :=
  match env.headerWrite with
  | .error e => (.error e, tr)
  | .ok _ => (.ok (), tr ++ [Ev.header])

/-- Function `crawlNvidia` from the source: write the header, then crawl from page 1
over a fresh (truncated) file.  `Effect.tapError` only logs, leaving the
result unchanged. -/
def crawlNvidia (env : Env) (params : CrawlParams) (fuel : Nat) :
    Option (Except Err Unit) × Trace :=
  match createCsvHeader env [] with
  | (.error e, tr) => (some (.error e), tr)
  | (.ok _, tr) => crawlPage env params fuel 1 tr

/-! Derived observations and specification-side definitions used to state
the claims. -/

/-- The row the crawl appends for a non-stale listing item, given the
environment: the CSV line built from the item and the body of its fetched
detail (unused when the detail fetch fails, since the run aborts there). -/
def rowOf (env : Env) (params : CrawlParams) (t : TopicListItem) : String :=
  match fetchJson (env.detail t.id) with
  | .ok d => csvLine params t (stripHtml (bodyHtml d))
  | .error _ => ""

/-- The line the specification's words describe for claim C6: every field of
the row, in the fixed column order, CSV-escaped, with a trailing newline.
Stated for comparison with `csvLine`, which the code actually uses. -/
def specCsvLine (params : CrawlParams) (listing : TopicListItem) (cleanBody : String) : String :=
  String.intercalate ","
    [escapeCsv (toString listing.id), escapeCsv listing.title, escapeCsv cleanBody,
     escapeCsv listing.created_at, escapeCsv params.tag] ++ "\n"

/-- Character-wise specification of quote doubling, for claim C7: every
double quote becomes two, every other character is kept literally. -/
def specDoubled (s : String) : String :=
  String.mk (s.data.flatMap (fun c => if c = '"' then ['"', '"'] else [c]))

/-! Concrete data used by the witnesses. -/

/-- A listing page with no items and a non-empty next-page link. -/
def resW : TopicListRes := { topics := [], more_topics_url := some "u" }

/-- A one-item listing page with no next-page link. -/
def resStaleW : TopicListRes := { topics := [⟨1, "t", "s", "2024"⟩], more_topics_url := none }

/-- A listing item. -/
def itemW : TopicListItem := ⟨1, "t", "s", "2024"⟩

/-- A listing item whose `created_at` parses to an older date under
`envMix`. -/
def itemOld : TopicListItem := ⟨2, "t2", "s2", "old"⟩

/-- A detail payload with no `post_stream` at all. -/
def detailW : TopicDetail := ⟨none⟩

/-- A healthy environment: every listing fetch returns `resW`, every detail
fetch returns `detailW`, every date parses to time 0, all writes succeed. -/
def envW : Env := {
  listing := fun _ => FetchOutcome.response 200 (Except.ok resW),
  detail := fun _ => FetchOutcome.response 200 (Except.ok detailW),
  parseISO := fun _ => some 0,
  headerWrite := Except.ok (),
  appendWrite := fun _ => Except.ok () }

/-- An environment whose date parser maps `"old"` to time 0 and every other
string to time 5. -/
def envMix : Env := {
  listing := fun _ => FetchOutcome.response 200 (Except.ok resW),
  detail := fun _ => FetchOutcome.response 200 (Except.ok detailW),
  parseISO := fun s => if s == "old" then some 0 else some 5,
  headerWrite := Except.ok (),
  appendWrite := fun _ => Except.ok () }

/-- An environment whose date parser fails on every string (every
`created_at` is an Invalid Date). -/
def envInvalid : Env := {
  listing := fun _ => FetchOutcome.response 200 (Except.ok resW),
  detail := fun _ => FetchOutcome.response 200 (Except.ok detailW),
  parseISO := fun _ => none,
  headerWrite := Except.ok (),
  appendWrite := fun _ => Except.ok () }

/-- An environment whose listing endpoint answers HTTP 500. -/
def env500 : Env := {
  listing := fun _ => FetchOutcome.response 500 (Except.ok resW),
  detail := fun _ => FetchOutcome.response 200 (Except.ok detailW),
  parseISO := fun _ => some 0,
  headerWrite := Except.ok (),
  appendWrite := fun _ => Except.ok () }

/-- An environment whose detail endpoint always fails at the transport
level. -/
def envDetailFail : Env := {
  listing := fun _ => FetchOutcome.response 200 (Except.ok resW),
  detail := fun _ => FetchOutcome.transportErr ⟨"net"⟩,
  parseISO := fun _ => some 0,
  headerWrite := Except.ok (),
  appendWrite := fun _ => Except.ok () }

/-- An environment whose file appends always fail. -/
def envAppendFail : Env := {
  listing := fun _ => FetchOutcome.response 200 (Except.ok resW),
  detail := fun _ => FetchOutcome.response 200 (Except.ok detailW),
  parseISO := fun _ => some 0,
  headerWrite := Except.ok (),
  appendWrite := fun _ => Except.error ⟨"disk"⟩ }

/-- Crawl parameters with cutoff time 0. -/
def paramsW : CrawlParams := ⟨"cuda", some 0, "out"⟩

/-- Crawl parameters with cutoff time 1 (so time 0 is stale). -/
def paramsStaleW : CrawlParams := ⟨"cuda", some 1, "out"⟩

/-- A listing item whose `created_at` field contains a comma. -/
def itemC6 : TopicListItem := ⟨1, "t", "s", "2024,01"⟩

/-- A post with neither a cooked nor a raw body. -/
def postW : Post := ⟨none, none, "c"⟩

/-! Helper lemmas. -/

/-- Quote doubling, computed recursively, agrees with its character-wise
specification. -/
theorem doubleQuotes_eq_flatMap (l : List Char) :
    doubleQuotes l = l.flatMap (fun c => if c = '"' then ['"', '"'] else [c]) := by
  induction l with
  | nil => rfl
  | cons c rest ih =>
    by_cases h : c = '"' <;> simp [doubleQuotes, h, ih]

/-- A character list without `<` is left untouched by the stripper. -/
theorem stripAux_no_lt (l : List Char) (h : l.all (fun c => !(c == '<')) = true) :
    stripAux l = l := by
  induction l with
  | nil => rfl
  | cons c rest ih =>
    rw [List.all_cons, Bool.and_eq_true] at h
    have h1 : ¬ c = '<' := by simpa using h.1
    simp [stripAux, h1, ih h.2]

/-- A buffered candidate tag that reaches a `>` (with at least one inner
character overall) is dropped, and scanning resumes after the `>`. -/
theorem stripTag_closes (t : List Char) :
    ∀ (buf rest : List Char), t.all (fun c => !(c == '>')) = true →
      (t = [] → buf ≠ []) → stripTag buf (t ++ '>' :: rest) = stripAux rest := by
  induction t with
  | nil =>
    intro buf rest _ hbuf
    cases buf with
    | nil => exact absurd rfl (hbuf rfl)
    | cons b bs => simp [stripTag]
  | cons d t' ih =>
    intro buf rest h hbuf
    rw [List.all_cons, Bool.and_eq_true] at h
    have h1 : ¬ d = '>' := by simpa using h.1
    simp only [List.cons_append, stripTag, if_neg h1]
    exact ih (d :: buf) rest h.2 (fun _ => by simp)

/-- A buffered candidate tag that never reaches a `>` is emitted verbatim:
the `<` and every character after it are preserved. -/
theorem stripTag_unclosed : ∀ (l buf : List Char), '>' ∉ l →
    stripTag buf l = '<' :: (buf.reverse ++ l) := by
  intro l
  induction l with
  | nil => intro buf h; simp [stripTag]
  | cons c l' ih =>
    intro buf h
    have hc : ¬ c = '>' := fun heq => h (by simp [heq])
    have h' : '>' ∉ l' := fun hm => h (by simp [hm])
    rw [stripTag.eq_def]
    simp only [if_neg hc]
    rw [ih (c :: buf) h']
    simp

/-- Processing one item only ever extends the trace. -/
theorem processItem_trace (env : Env) (params : CrawlParams) (t : TopicListItem) (tr : Trace) :
    ∃ added, (processItem env params t tr).2 = tr ++ added := by
  unfold processItem
  by_cases hs : isBefore (env.parseISO t.created_at) params.since
  · exact ⟨[], by simp [hs]⟩
  · simp only [hs, Bool.false_eq_true, if_false]
    cases hf : fetchJson (env.detail t.id) with
    | error e => exact ⟨[Ev.detailFetch t.id], rfl⟩
    | ok d =>
      unfold saveTopic
      cases hw : env.appendWrite (appendCount (tr ++ [Ev.detailFetch t.id])) with
      | error e => exact ⟨[Ev.detailFetch t.id], rfl⟩
      | ok u =>
        exact ⟨[Ev.detailFetch t.id,
          Ev.append (csvLine params t (stripHtml (bodyHtml d)))], by simp⟩

/-- Processing a page's items only ever extends the trace. -/
theorem processItems_trace (env : Env) (params : CrawlParams) :
    ∀ (items : List TopicListItem) (tr : Trace),
      ∃ added, (processItems env params items tr).2 = tr ++ added := by
  intro items
  induction items with
  | nil => intro tr; exact ⟨[], by simp [processItems]⟩
  | cons t rest ih =>
    intro tr
    have hx := processItem_trace env params t tr
    cases hp : processItem env params t tr with
    | mk r tr1 =>
      rw [hp] at hx
      obtain ⟨a1, ha1⟩ := hx
      have ha1' : tr1 = tr ++ a1 := ha1
      subst ha1'
      cases r with
      | error e => exact ⟨a1, by simp [processItems, hp]⟩
      | ok u =>
        obtain ⟨a2, ha2⟩ := ih (tr ++ a1)
        exact ⟨a1 ++ a2, by simp [processItems, hp, ha2]⟩

/-- Crawling only ever extends the trace: whatever was already on disk
stays there (append-only, no cleanup on failure). -/
theorem crawlPage_trace (env : Env) (params : CrawlParams) :
    ∀ (fuel page : Nat) (tr : Trace),
      ∃ added, (crawlPage env params fuel page tr).2 = tr ++ added := by
  intro fuel
  induction fuel with
  | zero => intro page tr; exact ⟨[], by simp [crawlPage]⟩
  | succ f ih =>
    intro page tr
    rw [crawlPage]
    cases hf : fetchJson (env.listing page) with
    | error e => exact ⟨[Ev.listFetch page], rfl⟩
    | ok res =>
      have hx := processItems_trace env params res.topics (tr ++ [Ev.listFetch page])
      cases hp : processItems env params res.topics (tr ++ [Ev.listFetch page]) with
      | mk r tr2 =>
        rw [hp] at hx
        obtain ⟨a1, ha1⟩ := hx
        have ha1' : tr2 = tr ++ [Ev.listFetch page] ++ a1 := ha1
        subst ha1'
        cases r with
        | error e => exact ⟨Ev.listFetch page :: a1, by simp [hp]⟩
        | ok u =>
          by_cases hstop : (moreAbsent res.more_topics_url || pageStale env params res) = true
          · rw [Bool.or_eq_true] at hstop
            exact ⟨Ev.listFetch page :: a1, by simp [hp, hstop]⟩
          · rw [Bool.or_eq_true] at hstop
            push_neg at hstop
            obtain ⟨a2, ha2⟩ := ih (page + 1) (tr ++ [Ev.listFetch page] ++ a1)
            refine ⟨Ev.listFetch page :: a1 ++ a2, ?_⟩
            simp [hp, hstop.1, hstop.2]
            simpa [List.append_assoc] using ha2

/-- A crawl step with fuel left always records the fetch of its page as the
next trace event. -/
theorem crawlPage_trace_cons (env : Env) (params : CrawlParams) (fuel page : Nat) (tr : Trace) :
    ∃ added, (crawlPage env params (fuel + 1) page tr).2 = tr ++ Ev.listFetch page :: added := by
  rw [crawlPage]
  cases hf : fetchJson (env.listing page) with
  | error e => exact ⟨[], rfl⟩
  | ok res =>
    have hx := processItems_trace env params res.topics (tr ++ [Ev.listFetch page])
    cases hp : processItems env params res.topics (tr ++ [Ev.listFetch page]) with
    | mk r tr2 =>
      rw [hp] at hx
      obtain ⟨a1, ha1⟩ := hx
      have ha1' : tr2 = tr ++ [Ev.listFetch page] ++ a1 := ha1
      subst ha1'
      cases r with
      | error e => exact ⟨a1, by simp [hp]⟩
      | ok u =>
        by_cases hstop : (moreAbsent res.more_topics_url || pageStale env params res) = true
        · rw [Bool.or_eq_true] at hstop
          exact ⟨a1, by simp [hp, hstop]⟩
        · rw [Bool.or_eq_true] at hstop
          push_neg at hstop
          obtain ⟨a2, ha2⟩ := crawlPage_trace env params fuel (page + 1)
            (tr ++ [Ev.listFetch page] ++ a1)
          refine ⟨a1 ++ a2, ?_⟩
          simp [hp, hstop.1, hstop.2]
          simpa [List.append_assoc] using ha2

/-- Lemma `appendsOf` distributes over trace concatenation. -/
theorem appendsOf_append (a b : Trace) : appendsOf (a ++ b) = appendsOf a ++ appendsOf b := by
  simp [appendsOf]

/-- Lemma `fileChunks` distributes over trace concatenation. -/
theorem fileChunks_append (a b : Trace) : fileChunks (a ++ b) = fileChunks a ++ fileChunks b := by
  simp [fileChunks]

/-- On a successful pass over a page's items, the rows appended are exactly
the rows of the non-stale items, in listing order, one each. -/
theorem processItems_ok_appendsOf (env : Env) (params : CrawlParams) :
    ∀ (items : List TopicListItem) (tr tr' : Trace) (u : Unit),
      processItems env params items tr = (.ok u, tr') →
      appendsOf tr' = appendsOf tr ++
        (items.filter
          (fun t => !(isBefore (env.parseISO t.created_at) params.since))).map
          (rowOf env params) := by
  intro items
  induction items with
  | nil =>
    intro tr tr' u hok
    simp [processItems] at hok
    simp [← hok]
  | cons t rest ih =>
    intro tr tr' u hok
    by_cases hs : isBefore (env.parseISO t.created_at) params.since
    · rw [processItems] at hok
      rw [show processItem env params t tr = (.ok (), tr) by simp [processItem, hs]] at hok
      rw [List.filter_cons_of_neg (by simp [hs])]
      exact ih tr tr' u hok
    · rw [processItems] at hok
      have hs' : isBefore (env.parseISO t.created_at) params.since = false := by
        simpa using hs
      cases hf : fetchJson (env.detail t.id) with
      | error e =>
        rw [show processItem env params t tr = (.error e, tr ++ [Ev.detailFetch t.id]) by
          simp [processItem, hs', hf]] at hok
        simp at hok
      | ok d =>
        cases hw : env.appendWrite (appendCount (tr ++ [Ev.detailFetch t.id])) with
        | error e =>
          rw [show processItem env params t tr = (.error e, tr ++ [Ev.detailFetch t.id]) by
            simp [processItem, hs', hf, saveTopic, hw]] at hok
          simp at hok
        | ok v =>
          rw [show processItem env params t tr =
            (.ok (), tr ++ [Ev.detailFetch t.id,
              Ev.append (csvLine params t (stripHtml (bodyHtml d)))]) by
            simp [processItem, hs', hf, saveTopic, hw]] at hok
          have := ih _ _ u hok
          rw [this, List.filter_cons_of_pos (by simp [hs'])]
          simp [appendsOf_append, appendsOf, rowOf, hf]

/-- Deleting a stale item from a page's item list does not change what
processing the page does: the stale item is a pure no-op. -/
theorem processItems_erase_stale (env : Env) (params : CrawlParams)
    (t : TopicListItem) (hs : isBefore (env.parseISO t.created_at) params.since = true) :
    ∀ (l₁ l₂ : List TopicListItem) (tr : Trace),
      processItems env params (l₁ ++ t :: l₂) tr = processItems env params (l₁ ++ l₂) tr := by
  intro l₁
  induction l₁ with
  | nil =>
    intro l₂ tr
    simp only [List.nil_append]
    rw [processItems, show processItem env params t tr = (.ok (), tr) by simp [processItem, hs]]
  | cons a l₁ ih =>
    intro l₂ tr
    simp only [List.cons_append]
    rw [processItems, processItems]
    cases hp : processItem env params a tr with
    | mk r tr1 =>
      cases r with
      | error e => rfl
      | ok u => exact ih l₂ tr1

/-- A non-stale item whose detail fetch and row append succeed records
exactly one detail fetch followed by one row append. -/
theorem processItem_nonstale (env : Env) (params : CrawlParams) (u : TopicListItem)
    (tr : Trace) (d : TopicDetail)
    (hu : isBefore (env.parseISO u.created_at) params.since = false)
    (hf : fetchJson (env.detail u.id) = .ok d)
    (hw : env.appendWrite (appendCount (tr ++ [Ev.detailFetch u.id])) = .ok ()) :
    processItem env params u tr =
      (.ok (), tr ++ [Ev.detailFetch u.id,
        Ev.append (csvLine params u (stripHtml (bodyHtml d)))]) := by
  simp [processItem, hu, hf, saveTopic, hw]

/-- After a successful listing fetch and a successful pass over the items,
the crawl either stops in success or recurses on the next page, exactly as
the stop condition decides. -/
theorem crawlPage_step (env : Env) (params : CrawlParams) (fuel page : Nat)
    (tr tr2 : Trace) (res : TopicListRes)
    (hfetch : fetchJson (env.listing page) = .ok res)
    (hitems : processItems env params res.topics (tr ++ [Ev.listFetch page]) = (.ok (), tr2)) :
    crawlPage env params (fuel + 1) page tr =
      (if moreAbsent res.more_topics_url || pageStale env params res then
        (some (.ok ()), tr2)
      else crawlPage env params fuel (page + 1) tr2) := by
  rw [crawlPage, hfetch]
  simp only [hitems]

/-! The claims. -/

/-- C1: for every fetched listing page, after all of the page's items have
been processed, the crawl controller fetches the next page if and only if
both (a) the page's next-page link is present (not absent and not empty)
and (b) no item on the page has `createdAt` strictly before `since`;
otherwise the run stops normally in Done.  When the stop condition is
false the run continues as the crawl of page+1 (whose listing fetch is the
next recorded event); when it is true the result is success with no
further events. -/
theorem c1_next_page_iff (env : Env) (params : CrawlParams) (fuel page : Nat)
    (tr tr2 : Trace) (res : TopicListRes)
    (hfetch : fetchJson (env.listing page) = .ok res)
    (hitems : processItems env params res.topics (tr ++ [Ev.listFetch page]) = (.ok (), tr2)) :
    ((moreAbsent res.more_topics_url || pageStale env params res) = false →
      crawlPage env params (fuel + 1 + 1) page tr = crawlPage env params (fuel + 1) (page + 1) tr2 ∧
      Ev.listFetch (page + 1) ∈ (crawlPage env params (fuel + 1 + 1) page tr).2) ∧
    ((moreAbsent res.more_topics_url || pageStale env params res) = true →
      crawlPage env params (fuel + 1 + 1) page tr = (some (.ok ()), tr2)) := by
  have hstep := crawlPage_step env params (fuel + 1) page tr tr2 res hfetch hitems
  constructor
  · intro hcond
    have heq : crawlPage env params (fuel + 1 + 1) page tr =
        crawlPage env params (fuel + 1) (page + 1) tr2 := by
      rw [hstep, if_neg (by simp [hcond])]
    refine ⟨heq, ?_⟩
    rw [heq]
    obtain ⟨added, ha⟩ := crawlPage_trace_cons env params fuel (page + 1) tr2
    rw [ha]
    simp

  · intro hcond
    rw [hstep, if_pos hcond]

/-- Witness for C1 at a concrete environment: an empty page with a
non-empty next-page link makes the controller fetch page 2. -/
theorem c1_witness :
    (moreAbsent resW.more_topics_url || pageStale envW paramsW resW) = false ∧
    Ev.listFetch 2 ∈ (crawlPage envW paramsW 2 1 []).2 :=
  ⟨by decide, ((c1_next_page_iff envW paramsW 0 1 [] [Ev.listFetch 1] resW rfl rfl).1 (by decide)).2⟩

/-- C2: for every listing item whose `createdAt` is strictly before
`since`, the controller performs no detail fetch and writes no CSV row for
it (processing it succeeds with the trace unchanged, so no event of any
kind is added); the item only contributes the page-level stale signal that
stops pagination. -/
theorem c2_stale_item_no_fetch_no_row (env : Env) (params : CrawlParams)
    (t : TopicListItem) (tr : Trace) (res : TopicListRes)
    (hstale : isBefore (env.parseISO t.created_at) params.since = true)
    (hmem : t ∈ res.topics) :
    processItem env params t tr = (.ok (), tr) ∧
    appendsOf (processItem env params t tr).2 = appendsOf tr ∧
    (∀ ev : Ev, ev ∈ (processItem env params t tr).2 ↔ ev ∈ tr) ∧
    pageStale env params res = true := by
  have h1 : processItem env params t tr = (.ok (), tr) := by simp [processItem, hstale]
  refine ⟨h1, by rw [h1], fun ev => by rw [h1], ?_⟩
  simp only [pageStale, List.any_eq_true]
  exact ⟨t, hmem, hstale⟩

/-- Witness for C2 at a concrete environment: a stale item is a no-op and
marks its page stale. -/
theorem c2_witness :
    processItem envW paramsStaleW itemW [] = (.ok (), []) ∧
    pageStale envW paramsStaleW resStaleW = true :=
  ⟨(c2_stale_item_no_fetch_no_row envW paramsStaleW itemW [] resStaleW (by decide) (by decide)).1,
   (c2_stale_item_no_fetch_no_row envW paramsStaleW itemW [] resStaleW (by decide) (by decide)).2.2.2⟩

/-- C3: a stale item does not abort processing of its page — processing
the page with the stale item equals processing it with that item deleted,
wherever the stale item sits, so every other item is still handled in
listing order; and any non-stale item still has its detail fetched and
(when fetch and append succeed) its row written.  Only continuation to
further pages is affected. -/
theorem c3_stale_does_not_abort_page (env : Env) (params : CrawlParams)
    (t : TopicListItem) (l₁ l₂ : List TopicListItem) (tr : Trace)
    (u : TopicListItem) (tr' : Trace) (d : TopicDetail)
    (hstale : isBefore (env.parseISO t.created_at) params.since = true)
    (hu : isBefore (env.parseISO u.created_at) params.since = false)
    (hf : fetchJson (env.detail u.id) = .ok d)
    (hw : env.appendWrite (appendCount (tr' ++ [Ev.detailFetch u.id])) = .ok ()) :
    processItems env params (l₁ ++ t :: l₂) tr = processItems env params (l₁ ++ l₂) tr ∧
    Ev.detailFetch u.id ∈ (processItem env params u tr').2 ∧
    processItem env params u tr' =
      (.ok (), tr' ++ [Ev.detailFetch u.id,
        Ev.append (csvLine params u (stripHtml (bodyHtml d)))]) := by
  have h3 := processItem_nonstale env params u tr' d hu hf hw
  exact ⟨processItems_erase_stale env params t hstale l₁ l₂ tr, by rw [h3]; simp, h3⟩

/-- Witness for C3 at a concrete environment: a page consisting of one
stale item processes exactly like the empty page. -/
theorem c3_witness :
    processItems envMix paramsStaleW [itemOld] [] = processItems envMix paramsStaleW [] [] :=
  (c3_stale_does_not_abort_page envMix paramsStaleW itemOld [] [] [] itemW [] detailW
    (by decide) (by decide) rfl rfl).1

/-- C4: every failure of a JSON fetch (listing or detail) or of a file
write aborts the run immediately at the point of failure with that error,
with no retry and no cleanup.  In order: a failing listing fetch ends the
page crawl at once with that error, having recorded only that one fetch; a
failing detail fetch ends the item with that error and writes no row; a
failing append ends the save with that error and leaves the file
untouched; a failed item aborts its page pass with the remaining items
unprocessed; a failed item pass ends the page crawl with that error (no
next page is fetched); a failed header write ends the run before any
fetch; the trace — hence the file — only ever grows, so rows already
written remain on disk; and in particular, when the first listing fetch
returns HTTP 500 after a successful header write, the run ends in failure
carrying the HTTP-status error for 500 and the file contains only the
header line. -/
theorem c4_failure_aborts_no_cleanup :
    (∀ (env : Env) (params : CrawlParams) (fuel page : Nat) (tr : Trace) (e : Err),
      fetchJson (env.listing page) = .error e →
      crawlPage env params (fuel + 1) page tr = (some (.error e), tr ++ [Ev.listFetch page])) ∧
    (∀ (env : Env) (params : CrawlParams) (t : TopicListItem) (tr : Trace) (e : Err),
      isBefore (env.parseISO t.created_at) params.since = false →
      fetchJson (env.detail t.id) = .error e →
      processItem env params t tr = (.error e, tr ++ [Ev.detailFetch t.id])) ∧
    (∀ (env : Env) (params : CrawlParams) (t : TopicListItem) (d : TopicDetail)
        (tr : Trace) (e : Err),
      env.appendWrite (appendCount tr) = .error e →
      saveTopic env params t d tr = (.error e, tr)) ∧
    (∀ (env : Env) (params : CrawlParams) (t : TopicListItem) (rest : List TopicListItem)
        (tr tr' : Trace) (e : Err),
      processItem env params t tr = (.error e, tr') →
      processItems env params (t :: rest) tr = (.error e, tr')) ∧
    (∀ (env : Env) (params : CrawlParams) (fuel page : Nat) (tr tr2 : Trace)
        (res : TopicListRes) (e : Err),
      fetchJson (env.listing page) = .ok res →
      processItems env params res.topics (tr ++ [Ev.listFetch page]) = (.error e, tr2) →
      crawlPage env params (fuel + 1) page tr = (some (.error e), tr2)) ∧
    (∀ (env : Env) (params : CrawlParams) (fuel : Nat) (e : Err),
      env.headerWrite = .error e →
      crawlNvidia env params fuel = (some (.error e), [])) ∧
    (∀ (env : Env) (params : CrawlParams) (fuel page : Nat) (tr : Trace),
      ∃ added, (crawlPage env params fuel page tr).2 = tr ++ added) ∧
    (∀ (env : Env) (params : CrawlParams) (f : Nat) (pb : Except Err TopicListRes),
      env.headerWrite = .ok () → env.listing 1 = .response 500 pb →
      crawlNvidia env params (f + 1) =
        (some (.error ⟨"HTTP 500"⟩), [Ev.header, Ev.listFetch 1])) ∧
    fileContent [Ev.header, Ev.listFetch 1] = headerLine := by
  refine ⟨?_, ?_, ?_, ?_, ?_, ?_, ?_, ?_, rfl⟩
  · intro env params fuel page tr e hf
    simp [crawlPage, hf]
  · intro env params t tr e hb hf
    simp [processItem, hb, hf]
  · intro env params t d tr e hw
    simp [saveTopic, hw]
  · intro env params t rest tr tr' e hp
    rw [processItems, hp]
  · intro env params fuel page tr tr2 res e hfetch hitems
    rw [crawlPage, hfetch]
    simp only [hitems]
  · intro env params fuel e he
    simp [crawlNvidia, createCsvHeader, he]
  · intro env params fuel page tr
    exact crawlPage_trace env params fuel page tr
  · intro env params f pb hheader hfetch
    have h500 : fetchJson (env.listing 1) = Except.error ⟨"HTTP 500"⟩ := by rw [hfetch]; rfl
    simp [crawlNvidia, createCsvHeader, hheader, crawlPage, h500]

/-- Witness for C4 at concrete environments: the HTTP 500 run, a failing
listing fetch, a failing detail fetch, and a failing append, each aborting
with its own error. -/
theorem c4_witness :
    crawlNvidia env500 paramsW 1 = (some (.error ⟨"HTTP 500"⟩), [Ev.header, Ev.listFetch 1]) ∧
    crawlPage env500 paramsW 1 1 [] = (some (.error ⟨"HTTP 500"⟩), [Ev.listFetch 1]) ∧
    processItem envDetailFail paramsW itemW [] = (.error ⟨"net"⟩, [Ev.detailFetch 1]) ∧
    saveTopic envAppendFail paramsW itemW detailW [] = (.error ⟨"disk"⟩, []) :=
  ⟨c4_failure_aborts_no_cleanup.2.2.2.2.2.2.2.1 env500 paramsW 0 (Except.ok resW) rfl rfl,
   c4_failure_aborts_no_cleanup.1 env500 paramsW 0 1 [] ⟨"HTTP 500"⟩ rfl,
   c4_failure_aborts_no_cleanup.2.1 envDetailFail paramsW itemW [] ⟨"net"⟩ (by decide) rfl,
   c4_failure_aborts_no_cleanup.2.2.1 envAppendFail paramsW itemW detailW [] ⟨"disk"⟩ rfl⟩

/-- C5: the output only grows by appends throughout a run (trace and file
chunks extend monotonically from any point), and on a successful pass over
a page's items the rows appended are exactly the rows of the non-stale
items, one row each, in server-supplied listing order — so no processed
item's row is written twice. -/
theorem c5_append_only_ordered_rows (env : Env) (params : CrawlParams)
    (items : List TopicListItem) (tr tr' : Trace) (u : Unit)
    (hok : processItems env params items tr = (.ok u, tr')) :
    appendsOf tr' = appendsOf tr ++
      (items.filter
        (fun t => !(isBefore (env.parseISO t.created_at) params.since))).map
        (rowOf env params) ∧
    (∀ fuel page tr0, ∃ added, (crawlPage env params fuel page tr0).2 = tr0 ++ added) ∧
    (∀ fuel page tr0, ∃ grown,
      fileChunks (crawlPage env params fuel page tr0).2 = fileChunks tr0 ++ grown) := by
  refine ⟨processItems_ok_appendsOf env params items tr tr' u hok,
    fun fuel page tr0 => crawlPage_trace env params fuel page tr0,
    fun fuel page tr0 => ?_⟩
  obtain ⟨added, ha⟩ := crawlPage_trace env params fuel page tr0
  exact ⟨fileChunks added, by rw [ha, fileChunks_append]⟩

/-- Witness for C5 at a concrete environment: one non-stale item yields
exactly its one row. -/
theorem c5_witness :
    appendsOf [Ev.detailFetch 1, Ev.append "1,t,,2024,cuda\n"] = [rowOf envW paramsW itemW] :=
  (c5_append_only_ordered_rows envW paramsW [itemW] []
    [Ev.detailFetch 1, Ev.append "1,t,,2024,cuda\n"] () rfl).1

/-- Counterexample for C6 as stated: the code appends `csvLine`, which
differs from `specCsvLine` (all five fields escaped, as the claim words
it) on a listing item whose `created_at` contains a comma — the code
writes `created_at` verbatim, unescaped. -/
theorem c6_counterexample :
    saveTopic envW paramsW itemC6 detailW [] =
      (.ok (), [Ev.append "1,t,,2024,01,cuda\n"]) ∧
    csvLine paramsW itemC6 (stripHtml (bodyHtml detailW)) ≠
      specCsvLine paramsW itemC6 (stripHtml (bodyHtml detailW)) := by
  exact ⟨rfl, by decide⟩

/-- C6 (amended): for every saved thread, the appended line consists of
the row's fields in the fixed column order id, title, body, created_at,
tag and ends with a trailing newline, where the title and body fields are
CSV-escaped while id, created_at and tag are written verbatim. -/
theorem c6_amended_row_format (env : Env) (params : CrawlParams)
    (t : TopicListItem) (d : TopicDetail) (tr : Trace) (body : String)
    (hwrite : env.appendWrite (appendCount tr) = .ok ()) :
    saveTopic env params t d tr =
      (.ok (), tr ++ [Ev.append (csvLine params t (stripHtml (bodyHtml d)))]) ∧
    csvLine params t body =
      toString t.id ++ "," ++ escapeCsv t.title ++ "," ++ escapeCsv body ++ "," ++
      t.created_at ++ "," ++ params.tag ++ "\n" := by
  constructor
  · simp [saveTopic, hwrite]
  · simp [csvLine, String.intercalate, String.intercalate.go, String.append_assoc]

/-- Witness for C6 (amended) at a concrete saved thread. -/
theorem c6_amended_witness :
    saveTopic envW paramsW itemW detailW [] = (.ok (), [Ev.append "1,t,,2024,cuda\n"]) ∧
    csvLine paramsW itemW "b" =
      toString itemW.id ++ "," ++ escapeCsv itemW.title ++ "," ++ escapeCsv "b" ++ "," ++
      itemW.created_at ++ "," ++ paramsW.tag ++ "\n" :=
  ⟨(c6_amended_row_format envW paramsW itemW detailW [] "b" rfl).1,
   (c6_amended_row_format envW paramsW itemW detailW [] "b" rfl).2⟩

/-- C7: every string containing a comma, a newline or a double quote is
escaped to the input wrapped in double quotes with every internal double
quote doubled and every other character (including embedded newlines)
preserved literally; in particular the two examples of the claim. -/
theorem c7_escape_quote_wrap (s : String)
    (h : (containsChar s ',' || containsChar s '\n' || containsChar s '"') = true) :
    escapeCsv s = "\"" ++ specDoubled s ++ "\"" ∧
    escapeCsv "Hello, World" = "\"Hello, World\"" ∧
    escapeCsv "She said \"hi\"" = "\"She said \"\"hi\"\"\"" := by
  refine ⟨?_, by decide, by decide⟩
  simp [escapeCsv, h, specDoubled, doubleQuotes_eq_flatMap]

/-- Witness for C7 at a concrete string containing a comma. -/
theorem c7_witness :
    (containsChar "a,b" ',' || containsChar "a,b" '\n' || containsChar "a,b" '"') = true ∧
    escapeCsv "a,b" = "\"" ++ specDoubled "a,b" ++ "\"" :=
  ⟨by decide, (c7_escape_quote_wrap "a,b" (by decide)).1⟩

/-- C8: the markup stripper is total (it is a plain Lean function, defined
for every string, malformed or unbalanced tags included) and is completely
characterized on every input by the following exhaustive equations over
the character scan: the empty input maps to itself; a character other than
`<` is preserved and scanning continues; a `<` followed by at least one
non-`>` character and then a `>` — exactly a match of `<[^>]+>`, ending at
the first `>` — is removed, and scanning continues after the `>`; a `<`
never followed by any `>` is preserved verbatim along with everything
after it (unclosed tag); and `<>` (no inner character, so not a match of
the regex) is preserved with scanning continuing after it.  In particular
the claim's example yields `Hello world`, and malformed inputs like
`"<a"` and `"<>"` come back unchanged rather than failing. -/
theorem c8_stripHtml_total_removal :
    stripHtml "<p>Hello <b>world</b></p>" = "Hello world" ∧
    (∀ s : String, stripHtml s = String.mk (stripAux s.data)) ∧
    stripAux [] = [] ∧
    (∀ (c : Char) (l : List Char), c ≠ '<' → stripAux (c :: l) = c :: stripAux l) ∧
    (∀ (t rest : List Char), t ≠ [] → '>' ∉ t →
      stripAux ('<' :: (t ++ '>' :: rest)) = stripAux rest) ∧
    (∀ l : List Char, '>' ∉ l → stripAux ('<' :: l) = '<' :: l) ∧
    (∀ l : List Char, stripAux ('<' :: '>' :: l) = '<' :: '>' :: stripAux l) ∧
    stripHtml "<a" = "<a" ∧
    stripHtml "<>" = "<>" ∧
    stripHtml "a<b>c<" = "ac<" := by
  refine ⟨by decide, fun s => rfl, rfl, ?_, ?_, ?_, ?_, by decide, by decide, by decide⟩
  · intro c l hc
    simp [stripAux, hc]
  · intro t rest ht hgt
    rw [show stripAux ('<' :: (t ++ '>' :: rest)) = stripTag [] (t ++ '>' :: rest) by
      simp [stripAux]]
    refine stripTag_closes t [] rest ?_ (fun h => absurd h ht)
    rw [List.all_eq_true]
    intro x hx
    have hne : x ≠ '>' := fun heq => hgt (heq ▸ hx)
    simpa using hne
  · intro l hgt
    rw [show stripAux ('<' :: l) = stripTag [] l by simp [stripAux],
      stripTag_unclosed l [] hgt]
    simp
  · intro l
    rfl

/-- Witness for C8 at concrete inputs: an ordinary character, a
well-formed tag, and an unclosed tag. -/
theorem c8_witness :
    stripAux ['x'] = ['x'] ∧
    stripAux ('<' :: (['a'] ++ '>' :: ['b'])) = stripAux ['b'] ∧
    stripAux ['<', 'q'] = ['<', 'q'] :=
  ⟨c8_stripHtml_total_removal.2.2.2.1 'x' [] (by decide),
   c8_stripHtml_total_removal.2.2.2.2.1 ['a'] ['b'] (by decide) (by decide),
   c8_stripHtml_total_removal.2.2.2.2.2.1 ['q'] (by decide)⟩

/-- C9: the body written to the CSV is selected by ordered fallback — the
first post's `cooked` body if present, otherwise its `raw` body, otherwise
the empty string — and a detail payload with no posts at all (empty posts
array, or missing posts, or missing post_stream) yields an empty body
written as an empty CSV field, not an error: saving such a thread
succeeds. -/
theorem c9_body_fallback (env : Env) (params : CrawlParams) (t : TopicListItem)
    (tr : Trace) (d : TopicDetail) (p : Post) (ps : List Post)
    (hno : firstPost d = none)
    (hwrite : env.appendWrite (appendCount tr) = .ok ()) :
    bodyHtml d = "" ∧
    saveTopic env params t d tr = (.ok (), tr ++ [Ev.append (csvLine params t "")]) ∧
    firstPost ⟨some ⟨some []⟩⟩ = none ∧
    firstPost ⟨none⟩ = none ∧
    (∀ c, p.cooked = some c → bodyHtml ⟨some ⟨some (p :: ps)⟩⟩ = c) ∧
    (∀ r, p.cooked = none → p.raw = some r → bodyHtml ⟨some ⟨some (p :: ps)⟩⟩ = r) ∧
    (p.cooked = none → p.raw = none → bodyHtml ⟨some ⟨some (p :: ps)⟩⟩ = "") := by
  have hb : bodyHtml d = "" := by simp [bodyHtml, hno]
  have hnil : stripHtml "" = "" := rfl
  refine ⟨hb, ?_, rfl, rfl, ?_, ?_, ?_⟩
  · simp [saveTopic, hwrite, hb, hnil]
  · intro c hc
    simp [bodyHtml, firstPost, hc]
  · intro r hc hr
    simp [bodyHtml, firstPost, hc, hr]
  · intro hc hr
    simp [bodyHtml, firstPost, hc, hr]

/-- Witness for C9 at a detail payload with no post stream. -/
theorem c9_witness :
    bodyHtml detailW = "" ∧
    saveTopic envW paramsW itemW detailW [] = (.ok (), [Ev.append (csvLine paramsW itemW "")]) :=
  ⟨(c9_body_fallback envW paramsW itemW [] detailW postW [] rfl rfl).1,
   (c9_body_fallback envW paramsW itemW [] detailW postW [] rfl rfl).2.1⟩

/-- C10: a listing item whose `created_at` does not parse (Invalid Date)
compares as not-before `since` (the NaN comparison is false), so the item
is treated as non-stale — its detail is fetched and, when fetch and append
succeed, its row is written — and a page whose items all fail to parse
never triggers the stale pagination stop. -/
theorem c10_invalid_date_is_processed (env : Env) (params : CrawlParams)
    (t : TopicListItem) (tr : Trace) (d : TopicDetail)
    (hinvalid : env.parseISO t.created_at = none)
    (hf : fetchJson (env.detail t.id) = .ok d)
    (hw : env.appendWrite (appendCount (tr ++ [Ev.detailFetch t.id])) = .ok ()) :
    isBefore (env.parseISO t.created_at) params.since = false ∧
    Ev.detailFetch t.id ∈ (processItem env params t tr).2 ∧
    processItem env params t tr =
      (.ok (), tr ++ [Ev.detailFetch t.id,
        Ev.append (csvLine params t (stripHtml (bodyHtml d)))]) ∧
    (∀ res : TopicListRes, (∀ u ∈ res.topics, env.parseISO u.created_at = none) →
      pageStale env params res = false) := by
  have hb : isBefore (env.parseISO t.created_at) params.since = false := by
    rw [hinvalid]
    cases params.since <;> rfl
  have h3 := processItem_nonstale env params t tr d hb hf hw
  refine ⟨hb, by rw [h3]; simp, h3, ?_⟩
  intro res hres
  rw [pageStale]
  rw [List.any_eq_false]
  intro u hu
  rw [hres u hu]
  cases params.since <;> simp [isBefore]

/-- Witness for C10 at an environment whose date parser always fails. -/
theorem c10_witness :
    isBefore (envInvalid.parseISO itemW.created_at) paramsW.since = false ∧
    processItem envInvalid paramsW itemW [] =
      (.ok (), [Ev.detailFetch 1, Ev.append "1,t,,2024,cuda\n"]) :=
  ⟨(c10_invalid_date_is_processed envInvalid paramsW itemW [] detailW rfl rfl rfl).1,
   (c10_invalid_date_is_processed envInvalid paramsW itemW [] detailW rfl rfl rfl).2.2.1⟩

end NvidiaScraper
